import Mathlib

/-!
Verification of the goerr repository (karrick/goerr): a decorator for Go
error values that attaches an optional exit code, an optional "temporary"
flag, and structured multi-line display text to an underlying error.

The embedding models Go error interface values as the inductive `GoErr`:
a Go `error` variable is either the nil interface (`nilE`), a non-nil
interface holding a nil `*Error` pointer (`decoratedNil`), a non-nil
`*Error` (`decorated`, whose struct fields other than the wrapped error
live in `DecoData` and whose `err` field is the `wrapped` argument, with
`nilE` standing for a nil `err` field), or a foreign error type
(`foreign`), which carries its `Error()` text and optionally implements
the `ExitCode() int`, `Temporary() bool` and `Unwrap() error`
capabilities (`ec`, `tmp`, and `hasUnwrap`/`unwrapsTo`; `unwrapsTo` is
meaningful only when `hasUnwrap = true` and is ignored otherwise).

Go `int` is modelled as `Int` (no arithmetic here ever nears 2^63, and
overflow never occurs in the translated code paths); Go string lengths
(`len(s)`, which counts bytes) are modelled with `String.utf8ByteSize`.
`strings.Repeat` panics on a negative count, so it is modelled as an
`Option`-returning function, and the rendering pipeline propagates that
possible panic as `none`.
-/

namespace Goerr

/-- Mirrors the `optionComment` struct of error.go: a comment attached to
the option token at position `index` (a Go `int`, so possibly negative or
out of range). -/
structure OptionComment where
  comment : String
  index : Int
deriving DecidableEq, Repr

/-- Mirrors the non-recursive fields of the `Error` struct of error.go.
The recursive `err` field is carried separately by the `GoErr.decorated`
constructor. -/
structure DecoData where
  optionComments : List OptionComment
  options : List String
  beforeMessage : List String
  betweenMessageAndOptions : List String
  afterOptions : List String
  msg : String
  exitCode : Int
  isExitCodeSet : Bool
  temporary : Bool
  isTemporarySet : Bool
deriving DecidableEq, Repr

/-- A Go `error` interface value, from the point of view of this package's
type switches: the nil interface, a typed-nil `*Error`, a non-nil
`*Error`, or a foreign error exposing some subset of the `ExitCode`,
`Temporary` and `Unwrap` capabilities together with its `Error()` text. -/
inductive GoErr : Type where
  | nilE : GoErr
  | decoratedNil : GoErr
  | decorated (d : DecoData) (wrapped : GoErr) : GoErr
  | foreign (msg : String) (ec : Option Int) (tmp : Option Bool)
      (hasUnwrap : Bool) (unwrapsTo : GoErr) : GoErr
deriving DecidableEq, Repr

/-- The zero value of the `Error` struct (all fields at their Go zero
values), used to build concrete instances. -/
def D0 : DecoData :=
  { optionComments := []
    options := []
    beforeMessage := []
    betweenMessageAndOptions := []
    afterOptions := []
    msg := ""
    exitCode := 0
    isExitCodeSet := false
    temporary := false
    isTemporarySet := false }

/-- Mirrors `unwrapExitCode` of unwrap.go: the type-switch loop. Cases in
source order: `nil` interface; `*Error` (typed nil gives the default,
otherwise the raw `exitCode`/`isExitCodeSet` fields are returned without
recursing); any other type implementing `ExitCode() int`; any other type
implementing `Unwrap() error` (loop continues on the unwrap target);
default. -/
def unwrapExitCode : GoErr → Int × Bool
  | .nilE => (0, false)
  | .decoratedNil => (0, false)
  | .decorated d _ => (d.exitCode, d.isExitCodeSet)
  | .foreign _ (some c) _ _ _ => (c, true)
  | .foreign _ none _ true u => unwrapExitCode u
  | .foreign _ none _ false _ => (0, false)

/-- Mirrors `unwrapTemporary` of unwrap.go, same loop shape with the
`Temporary() bool` capability. -/
def unwrapTemporary : GoErr → Bool × Bool
  | .nilE => (false, false)
  | .decoratedNil => (false, false)
  | .decorated d _ => (d.temporary, d.isTemporarySet)
  | .foreign _ _ (some b) _ _ => (b, true)
  | .foreign _ _ none true u => unwrapTemporary u
  | .foreign _ _ none false _ => (false, false)

/-- Mirrors the free function `ExitCode` of unwrap.go. -/
def ExitCode (err : GoErr) : Int := (unwrapExitCode err).1

/-- Mirrors the free function `Temporary` of unwrap.go. -/
def Temporary (err : GoErr) : Bool := (unwrapTemporary err).1

/-- Mirrors the method `Error.ExitCode` of error.go (receiver split into
its data fields `d` and wrapped error `w`). -/
def methodExitCode (d : DecoData) (w : GoErr) : Int :=
  if d.isExitCodeSet then d.exitCode else ExitCode w

/-- Mirrors the method `Error.Temporary` of error.go. -/
def methodTemporary (d : DecoData) (w : GoErr) : Bool :=
  if d.isTemporarySet then d.temporary else Temporary w

/-- Mirrors the method `Error.Unwrap` of error.go. -/
def methodUnwrap (_ : DecoData) (w : GoErr) : GoErr := w

/-- Number of loop iterations available to the resolution walk before it
must have terminated: the length of the unwrap chain reachable through
foreign `Unwrap` capabilities. -/
def chainLen : GoErr → Nat
  | .foreign _ _ _ true u => 1 + chainLen u
  | _ => 1

/-- Fuel-indexed version of `unwrapExitCode`: `none` when the iteration
budget is exhausted before the loop returns. -/
def unwrapExitCodeF : Nat → GoErr → Option (Int × Bool)
  | 0, _ => none
  | _ + 1, .nilE => some (0, false)
  | _ + 1, .decoratedNil => some (0, false)
  | _ + 1, .decorated d _ => some (d.exitCode, d.isExitCodeSet)
  | _ + 1, .foreign _ (some c) _ _ _ => some (c, true)
  | n + 1, .foreign _ none _ true u => unwrapExitCodeF n u
  | _ + 1, .foreign _ none _ false _ => some (0, false)

/-- Fuel-indexed version of `unwrapTemporary`. -/
def unwrapTemporaryF : Nat → GoErr → Option (Bool × Bool)
  | 0, _ => none
  | _ + 1, .nilE => some (false, false)
  | _ + 1, .decoratedNil => some (false, false)
  | _ + 1, .decorated d _ => some (d.temporary, d.isTemporarySet)
  | _ + 1, .foreign _ _ (some b) _ _ => some (b, true)
  | n + 1, .foreign _ _ none true u => unwrapTemporaryF n u
  | _ + 1, .foreign _ _ none false _ => some (false, false)

/-- An `Error` value with an explicit exit code 5. -/
def D5 : DecoData := { D0 with exitCode := 5, isExitCodeSet := true }

/-- An `Error` value with an explicit temporary flag set to true. -/
def DT : DecoData := { D0 with temporary := true, isTemporarySet := true }

/-- Claim C1 (code bug): for a `*Error` whose exit-code (resp. temporary)
override flag is unset, the free-standing `ExitCode` (resp. `Temporary`)
entry point is claimed (and documented in the source) to resolve the
attribute on the wrapped error recursively; the implementation's `*Error`
type-switch case instead returns the raw stored field without recursing.
On the failing input — an `Error` with no override wrapping an `Error`
with exit code 5 (resp. temporary true) — the free function returns 0
(resp. false) while the wrapped error resolves to 5 (resp. true) and the
`ExitCode()`/`Temporary()` methods, which do recurse, return 5 (resp.
true). -/
theorem exitCode_unset_ignores_wrapped_chain :
    ExitCode (.decorated D0 (.decorated D5 .nilE)) = 0 ∧
    ExitCode (.decorated D5 .nilE) = 5 ∧
    methodExitCode D0 (.decorated D5 .nilE) = 5 ∧
    Temporary (.decorated D0 (.decorated DT .nilE)) = false ∧
    Temporary (.decorated DT .nilE) = true ∧
    methodTemporary D0 (.decorated DT .nilE) = true := by
  decide

/-- Claim C2: when the exit-code (resp. temporary) override flag is set on
a `*Error`, both the free-standing entry point and the method return the
explicitly set value, for every wrapped chain below it. -/
theorem set_override_always_wins (d : DecoData) (w : GoErr) :
    (d.isExitCodeSet = true →
      ExitCode (.decorated d w) = d.exitCode ∧ methodExitCode d w = d.exitCode) ∧
    (d.isTemporarySet = true →
      Temporary (.decorated d w) = d.temporary ∧ methodTemporary d w = d.temporary) := by
  refine ⟨fun h => ⟨rfl, ?_⟩, fun h => ⟨rfl, ?_⟩⟩
  · simp [methodExitCode, h]
  · simp [methodTemporary, h]

/-- Witness for C2 at a concrete input with both flags set. -/
theorem set_override_always_wins_witness :
    ExitCode (.decorated { D5 with temporary := true, isTemporarySet := true } .nilE) = 5 ∧
    Temporary (.decorated { D5 with temporary := true, isTemporarySet := true } .nilE) = true := by
  refine ⟨(set_override_always_wins _ .nilE).1 rfl |>.1, (set_override_always_wins _ .nilE).2 rfl |>.1⟩

/-- Claim C3: a foreign (non-`*Error`) error value exposing the exit-code
(resp. temporary) capability has that capability's value returned
directly by the free entry point, with no further unwrapping, even when
the value also exposes the unwrap capability (`hu` and `u` arbitrary). -/
theorem foreign_capability_wins (m : String) (c : Int) (b : Bool)
    (ec : Option Int) (tmp : Option Bool) (hu : Bool) (u : GoErr) :
    ExitCode (.foreign m (some c) tmp hu u) = c ∧
    Temporary (.foreign m ec (some b) hu u) = b := by
  constructor
  · rfl
  · cases ec <;> rfl

/-- Claim C9: the resolution walk terminates on every finite acyclic
chain: with an iteration budget equal to the chain length, the
fuel-indexed loop returns (it never runs out of fuel), and its result is
the one the loop computes — each iteration either returns or moves
strictly forward to the unwrap target. -/
theorem resolution_walk_terminates (e : GoErr) :
    unwrapExitCodeF (chainLen e) e = some (unwrapExitCode e) ∧
    unwrapTemporaryF (chainLen e) e = some (unwrapTemporary e) := by
  induction e with
  | nilE => exact ⟨rfl, rfl⟩
  | decoratedNil => exact ⟨rfl, rfl⟩
  | decorated d w _ => exact ⟨rfl, rfl⟩
  | foreign m ec tmp hu u ih =>
    cases hu with
    | false => cases ec <;> cases tmp <;> exact ⟨rfl, rfl⟩
    | true =>
      cases ec <;> cases tmp <;>
        simp_all [chainLen, unwrapExitCodeF, unwrapTemporaryF, unwrapExitCode, unwrapTemporary,
          Nat.add_comm 1 (chainLen u)]

/-- Models `strings.Repeat(s, n)` with a Go `int` count: Go panics when
the count is negative ("strings: negative Repeat count"), modelled as
`none`. -/
def goRepeat (s : String) (n : Int) : Option String :=
  if n < 0 then none
  else some (String.join (List.replicate n.toNat s))

/-- Go's `len` on a string counts bytes. -/
def goLen (s : String) : Int := (s.utf8ByteSize : Int)

/-- The running `length` accumulator of the loop in `optionLines`
(error.go): starting from `base`, add `len(opt) + 1` for each option. -/
def optLengthFrom (base : Int) : List String → Int
  | [] => base
  | opt :: rest => optLengthFrom (base + goLen opt + 1) rest

/-- The final value of the `length` variable in `optionLines`. -/
def optLength (opts : List String) : Int := optLengthFrom 0 opts

/-- The `indices` slice built by the loop in `optionLines`: `base`, then
the running lengths after each option (recursive rendering of
`indices := append(indices, length)` with `length += len(opt)+1`). -/
def optIndicesFrom (base : Int) : List String → List Int
  | [] => [base]
  | opt :: rest => base :: optIndicesFrom (base + goLen opt + 1) rest

/-- The `indices` slice of `optionLines` (first entry 0). -/
def optIndices (opts : List String) : List Int := optIndicesFrom 0 opts

/-- The ordering used by `optionCommentSlice.Less` (error.go):
`Less(i, j) = x[i].index > x[j].index`, i.e. `a` precedes `b` when
`b.index ≤ a.index` (non-strict form of the same total preorder). -/
def ocGE (a b : OptionComment) : Prop := b.index ≤ a.index

instance : DecidableRel ocGE := fun a b => inferInstanceAs (Decidable (b.index ≤ a.index))

instance : IsTotal OptionComment ocGE := ⟨fun a b => le_total b.index a.index⟩

instance : IsTrans OptionComment ocGE := ⟨fun _ _ _ h1 h2 => le_trans h2 h1⟩

/-- Models `sort.Sort(optionCommentSlice(ocs))`: the slice reordered into
non-increasing index order. Go's `sort.Sort` runs plain insertion sort on
ranges shorter than 12 elements — the stable sort by this ordering, which
is what this model uses throughout (on 12 or more annotations with equal
indices Go's unstable partitioning could order ties differently; no use
in this repository reaches that regime). -/
def sortSort (ocs : List OptionComment) : List OptionComment :=
  List.insertionSort ocGE ocs

/-- The body of the per-annotation loop of `optionLines` (error.go):
the single display line produced for one annotation. Out-of-range indices
get `length` spaces then `"^ "` and the comment; in-range indices get the
token's start column in spaces, a caret, `width - 2` tildes (distance to
the next token's start, or to `length` for the last token), a space and
the comment. `strings.Repeat` with a negative tilde count panics
(`none`). -/
def ocLine (opts : List String) (oc : OptionComment) : Option String :=
  if oc.index < 0 ∨ (opts.length : Int) ≤ oc.index then
    (goRepeat " " (optLength opts)).map (fun pad => pad ++ "^ " ++ oc.comment)
  else
    (goRepeat " " ((optIndices opts).getD oc.index.toNat 0)).bind (fun pad =>
      (goRepeat "~"
        (if oc.index = (opts.length : Int) - 1 then
          optLength opts - (optIndices opts).getD oc.index.toNat 0 - 2
        else
          (optIndices opts).getD (oc.index.toNat + 1) 0 -
            (optIndices opts).getD oc.index.toNat 0 - 2)).map (fun tl =>
        pad ++ "^" ++ tl ++ " " ++ oc.comment))

/-- Mirrors `optionLines` of error.go: empty options give no lines
(Go returns nil); otherwise the space-joined option line, and when
annotations are present, one line per annotation in sorted order. A panic
anywhere in the loop is propagated as `none`. -/
def optionLines (opts : List String) (ocs : List OptionComment) : Option (List String) :=
  if opts.length = 0 then some []
  else if ocs.length = 0 then some [String.intercalate " " opts]
  else do
    let rest ← (sortSort ocs).mapM (ocLine opts)
    pure (String.intercalate " " opts :: rest)

/-- The fixed placeholder message line of `Error.ErrorLines` for the
degenerate state (no message, no wrapped error). -/
def placeholderLine : String := "error without message or wrapped error"

/-- The body of `Error.ErrorLines` (error.go), with the wrapped error
abstracted to `wStr`: `none` when the `err` field is nil, `some os` when
it is non-nil with `os` the outcome of calling its `Error()` method
(`none` inside = that call panics, e.g. on a typed-nil `*Error`).
Lines are, in order: `beforeMessage`, exactly one message line,
`betweenMessageAndOptions`, the `optionLines` output, `afterOptions`. -/
def errLinesCore (d : DecoData) (wStr : Option (Option String)) : Option (List String) := do
  let msgLine ←
    if d.msg ≠ "" then
      match wStr with
      | none => pure d.msg
      | some os => do
          let s ← os
          pure (d.msg ++ ": " ++ s)
    else
      match wStr with
      | none => pure placeholderLine
      | some os => os
  let optLs ← optionLines d.options d.optionComments
  pure (d.beforeMessage ++ [msgLine] ++ d.betweenMessageAndOptions ++ optLs ++ d.afterOptions)

/-- The `Error()` text of a Go error value in this model: foreign errors
return their own message; a non-nil `*Error` joins its `ErrorLines` with
newlines (`Error.Error` of error.go); calling `Error()` on a typed-nil
`*Error` or through a nil interface dereferences nil and panics
(`none`). -/
def goErrorStr : GoErr → Option String
  | .nilE => none
  | .decoratedNil => none
  | .foreign m _ _ _ _ => some m
  | .decorated d w =>
      (errLinesCore d
          (match w with
            | .nilE => none
            | e => some (goErrorStr e))).map (String.intercalate "\n")

/-- The `wStr` argument of `errLinesCore` for a concrete wrapped error
field. -/
def wrapArg : GoErr → Option (Option String)
  | .nilE => none
  | e => some (goErrorStr e)

/-- Mirrors the method `Error.ErrorLines` of error.go. -/
def ErrorLines (d : DecoData) (w : GoErr) : Option (List String) :=
  errLinesCore d (wrapArg w)

/-- Mirrors the method `Error.Error` of error.go: `ErrorLines` joined
with newline separators. -/
def ErrorStr (d : DecoData) (w : GoErr) : Option String :=
  (ErrorLines d w).map (String.intercalate "\n")

/-- Mirrors `MaybeWrap` of error.go: nil in, nil `*Error` out; otherwise
a new `Error` wrapping `err`. A `*Error` value is modelled as
`Option (DecoData × GoErr)` with `none` for the nil pointer. -/
def MaybeWrap : GoErr → Option (DecoData × GoErr)
  | .nilE => none
  | e => some (D0, e)

/-- A `*Error` converted back to a Go `error` interface value: a nil
pointer becomes a non-nil interface holding a typed-nil `*Error`. -/
def toGoErr : Option (DecoData × GoErr) → GoErr
  | none => .decoratedNil
  | some (d, w) => .decorated d w

/-- Mirrors `Error.WithExitCode` (error.go): no-op on a nil receiver. -/
def WithExitCode (e : Option (DecoData × GoErr)) (code : Int) : Option (DecoData × GoErr) :=
  match e with
  | none => none
  | some (d, w) => some ({ d with isExitCodeSet := true, exitCode := code }, w)

/-- Mirrors `Error.WithTemporary` (error.go). -/
def WithTemporary (e : Option (DecoData × GoErr)) (t : Bool) : Option (DecoData × GoErr) :=
  match e with
  | none => none
  | some (d, w) => some ({ d with isTemporarySet := true, temporary := t }, w)

/-- Mirrors `Error.WithMessage` (error.go), with the formatted message
passed already rendered. -/
def WithMessage (e : Option (DecoData × GoErr)) (m : String) : Option (DecoData × GoErr) :=
  match e with
  | none => none
  | some (d, w) => some ({ d with msg := m }, w)

/-- Mirrors `Error.WithWrap` (error.go). -/
def WithWrap (e : Option (DecoData × GoErr)) (err : GoErr) : Option (DecoData × GoErr) :=
  match e with
  | none => none
  | some (d, _) => some (d, err)

/-- Mirrors `Error.WithOptions` (error.go). -/
def WithOptions (e : Option (DecoData × GoErr)) (opts : List String) : Option (DecoData × GoErr) :=
  match e with
  | none => none
  | some (d, w) => some ({ d with options := opts }, w)

/-- Mirrors `Error.WithOptionComment` (error.go). -/
def WithOptionComment (e : Option (DecoData × GoErr)) (i : Int) (c : String) :
    Option (DecoData × GoErr) :=
  match e with
  | none => none
  | some (d, w) => some ({ d with optionComments := d.optionComments ++ [⟨c, i⟩] }, w)

/-- Mirrors `Error.WithLineBeforeMessage` (error.go). -/
def WithLineBeforeMessage (e : Option (DecoData × GoErr)) (l : String) :
    Option (DecoData × GoErr) :=
  match e with
  | none => none
  | some (d, w) => some ({ d with beforeMessage := d.beforeMessage ++ [l] }, w)

/-- Mirrors `Error.WithLinesBeforeMessage` (error.go). -/
def WithLinesBeforeMessage (e : Option (DecoData × GoErr)) (ls : List String) :
    Option (DecoData × GoErr) :=
  match e with
  | none => none
  | some (d, w) => some ({ d with beforeMessage := d.beforeMessage ++ ls }, w)

/-- Mirrors `Error.WithLineBetweenMessageAndOption` (error.go). -/
def WithLineBetweenMessageAndOption (e : Option (DecoData × GoErr)) (l : String) :
    Option (DecoData × GoErr) :=
  match e with
  | none => none
  | some (d, w) =>
      some ({ d with betweenMessageAndOptions := d.betweenMessageAndOptions ++ [l] }, w)

/-- Mirrors `Error.WithLinesBetweenMessageAndOption` (error.go). -/
def WithLinesBetweenMessageAndOption (e : Option (DecoData × GoErr)) (ls : List String) :
    Option (DecoData × GoErr) :=
  match e with
  | none => none
  | some (d, w) =>
      some ({ d with betweenMessageAndOptions := d.betweenMessageAndOptions ++ ls }, w)

/-- Mirrors `Error.WithLineAfterOptions` (error.go). -/
def WithLineAfterOptions (e : Option (DecoData × GoErr)) (l : String) :
    Option (DecoData × GoErr) :=
  match e with
  | none => none
  | some (d, w) => some ({ d with afterOptions := d.afterOptions ++ [l] }, w)

/-- Mirrors `Error.WithLinesAfterOptions` (error.go). -/
def WithLinesAfterOptions (e : Option (DecoData × GoErr)) (ls : List String) :
    Option (DecoData × GoErr) :=
  match e with
  | none => none
  | some (d, w) => some ({ d with afterOptions := d.afterOptions ++ ls }, w)

/-- The observable post-state of the receiver's fields after
`Error.ErrorLines` (or `Error.Error`) returns. The Go method takes the
receiver by value, but slice fields alias their backing arrays, and
`optionLines(e.options, e.optionComments...)` passes the
`optionComments` slice through unchanged, so `sort.Sort` inside
`optionLines` permutes the caller's `optionComments` array in place.
That sort is only reached when both `options` and `optionComments` are
non-empty (`optionLines` returns before sorting otherwise); no other
field is written through. -/
def errorLinesEffect (d : DecoData) : DecoData :=
  if d.options.length = 0 then d
  else if d.optionComments.length = 0 then d
  else { d with optionComments := sortSort d.optionComments }

theorem goLen_nonneg (s : String) : 0 ≤ goLen s := by
  unfold goLen
  exact_mod_cast Nat.zero_le s.utf8ByteSize

theorem goLen_pos (s : String) (h : s ≠ "") : 1 ≤ goLen s := by
  cases s with
  | mk l =>
    cases l with
    | nil => exact absurd rfl h
    | cons c cs =>
      have h1 : 0 < Char.utf8Size c := Char.utf8Size_pos c
      have h2 : 1 ≤ String.utf8ByteSize ⟨c :: cs⟩ := by
        simp only [String.utf8ByteSize_mk, String.utf8Len_cons]
        omega
      unfold goLen
      exact_mod_cast h2

theorem goLen_append (a b : String) : goLen (a ++ b) = goLen a + goLen b := by
  cases a with
  | mk l1 =>
    cases b with
    | mk l2 =>
      show goLen ⟨l1 ++ l2⟩ = goLen ⟨l1⟩ + goLen ⟨l2⟩
      simp [goLen]

theorem optLengthFrom_shift : ∀ (l : List String) (base : Int),
    optLengthFrom base l = base + optLengthFrom 0 l
  | [], base => by simp [optLengthFrom]
  | opt :: rest, base => by
    show optLengthFrom (base + goLen opt + 1) rest = base + optLengthFrom (0 + goLen opt + 1) rest
    rw [optLengthFrom_shift rest (base + goLen opt + 1),
      optLengthFrom_shift rest (0 + goLen opt + 1)]
    ring

theorem optLength_nonneg : ∀ (l : List String), 0 ≤ optLengthFrom 0 l
  | [] => le_refl 0
  | opt :: rest => by
    show (0 : Int) ≤ optLengthFrom (0 + goLen opt + 1) rest
    rw [optLengthFrom_shift]
    have h1 := goLen_nonneg opt
    have h2 := optLength_nonneg rest
    omega

theorem optLengthFrom_append : ∀ (l1 l2 : List String) (base : Int),
    optLengthFrom base (l1 ++ l2) = optLengthFrom (optLengthFrom base l1) l2
  | [], _, _ => rfl
  | _ :: l1, l2, _ => optLengthFrom_append l1 l2 _

theorem optIndicesFrom_getD : ∀ (l : List String) (base : Int) (i : Nat), i ≤ l.length →
    (optIndicesFrom base l).getD i 0 = optLengthFrom base (l.take i)
  | l, base, 0, _ => by cases l <;> rfl
  | [], _, i + 1, h => absurd h (by simp)
  | a :: l, base, i + 1, h => by
    show (optIndicesFrom (base + goLen a + 1) l).getD i 0 =
      optLengthFrom base ((a :: l).take (i + 1))
    rw [optIndicesFrom_getD l (base + goLen a + 1) i (by simpa using h)]
    rfl

theorem optIndices_getD (opts : List String) (i : Nat) (h : i ≤ opts.length) :
    (optIndices opts).getD i 0 = optLengthFrom 0 (opts.take i) :=
  optIndicesFrom_getD opts 0 i h

theorem intercalate_go_len : ∀ (as : List String) (acc : String),
    goLen (String.intercalate.go acc " " as) = goLen acc + optLengthFrom 0 as
  | [], acc => by simp [String.intercalate.go, optLengthFrom]
  | a :: as, acc => by
    show goLen (String.intercalate.go (acc ++ " " ++ a) " " as) = _
    rw [intercalate_go_len as (acc ++ " " ++ a), goLen_append, goLen_append]
    show goLen acc + goLen " " + goLen a + optLengthFrom 0 as =
      goLen acc + optLengthFrom (0 + goLen a + 1) as
    rw [optLengthFrom_shift as (0 + goLen a + 1)]
    have hsp : goLen " " = 1 := rfl
    rw [hsp]
    ring

theorem optLength_eq_goLen_intercalate (a : String) (as : List String) :
    optLength (a :: as) = goLen (String.intercalate " " (a :: as)) + 1 := by
  show optLengthFrom (0 + goLen a + 1) as = goLen (String.intercalate.go a " " as) + 1
  rw [intercalate_go_len, optLengthFrom_shift]
  ring

theorem mapM_option_length {α β : Type} (f : α → Option β) :
    ∀ (l : List α) (r : List β), l.mapM f = some r → r.length = l.length := by
  intro l
  induction l with
  | nil =>
    intro r h
    simp only [List.mapM_nil] at h
    cases h
    rfl
  | cons a l ih =>
    intro r h
    rw [List.mapM_cons] at h
    cases hfa : f a with
    | none => rw [hfa] at h; simp at h
    | some b =>
      rw [hfa] at h
      cases hml : l.mapM f with
      | none => rw [hml] at h; simp at h
      | some bs =>
        rw [hml] at h
        simp only [bind_pure_comp, Option.bind_some, Option.map_some] at h
        cases h
        simp [ih bs hml]

theorem filter_orderedInsert (k : Int) (a : OptionComment) :
    ∀ (s : List OptionComment),
      (List.orderedInsert ocGE a s).filter (fun oc => oc.index == k) =
        if a.index == k then a :: s.filter (fun oc => oc.index == k)
        else s.filter (fun oc => oc.index == k)
  | [] => by
    simp only [List.orderedInsert, List.filter_cons, List.filter_nil]
  | b :: s => by
    by_cases hab : ocGE a b
    · simp only [List.orderedInsert, if_pos hab, List.filter_cons]
    · have hlt : a.index < b.index := lt_of_not_le hab
      simp only [List.orderedInsert, if_neg hab, List.filter_cons,
        filter_orderedInsert k a s]
      by_cases hak : a.index = k
      · have hbk : (b.index == k) = false := by
          simp only [beq_eq_false_iff_ne, ne_eq]
          omega
        simp [hak, hbk]
      · have hak' : (a.index == k) = false := by
          simp only [beq_eq_false_iff_ne, ne_eq]
          exact hak
        simp only [hak', if_neg]
        split <;> rfl

theorem filter_sortSort (k : Int) : ∀ (ocs : List OptionComment),
    (sortSort ocs).filter (fun oc => oc.index == k) = ocs.filter (fun oc => oc.index == k)
  | [] => rfl
  | a :: l => by
    show (List.orderedInsert ocGE a (sortSort l)).filter (fun oc => oc.index == k) = _
    rw [filter_orderedInsert k a (sortSort l), filter_sortSort k l]
    simp only [List.filter]
    cases hak : (a.index == k) <;> simp [hak]

theorem sortSort_perm (ocs : List OptionComment) : List.Perm (sortSort ocs) ocs :=
  List.perm_insertionSort ocGE ocs

theorem sortSort_sorted (ocs : List OptionComment) : List.Pairwise ocGE (sortSort ocs) :=
  List.sorted_insertionSort ocGE ocs

theorem sortSort_idem (ocs : List OptionComment) : sortSort (sortSort ocs) = sortSort ocs :=
  List.Sorted.insertionSort_eq (List.sorted_insertionSort ocGE ocs)

theorem optionLines_sortSort (opts : List String) (ocs : List OptionComment) :
    optionLines opts (sortSort ocs) = optionLines opts ocs := by
  unfold optionLines
  have hlen : (sortSort ocs).length = ocs.length := List.length_insertionSort ocGE ocs
  rw [hlen, sortSort_idem]

theorem wrapArg_ne (w : GoErr) (h : w ≠ .nilE) : wrapArg w = some (goErrorStr w) := by
  cases w with
  | nilE => exact absurd rfl h
  | decoratedNil => rfl
  | decorated d w => rfl
  | foreign m ec tmp hu u => rfl

/-- Claim C5: `ErrorLines` is the beforeMessage lines, one message line
(four cases exactly as specified: message and wrapped joined with ": ",
message alone, wrapped text alone, or the fixed placeholder), the
betweenMessageAndOptions lines, the option-renderer output, and the
afterOptions lines; `Error` is the lines joined with newlines; and the
concrete instance from the spec evaluates to exactly the five stated
lines. -/
theorem error_lines_assembly (d : DecoData) (w : GoErr) (ws : String) (ols : List String)
    (ho : optionLines d.options d.optionComments = some ols) :
    (d.msg ≠ "" → w = .nilE →
      ErrorLines d w = some (d.beforeMessage ++ [d.msg] ++
        d.betweenMessageAndOptions ++ ols ++ d.afterOptions)) ∧
    (d.msg ≠ "" → w ≠ .nilE → goErrorStr w = some ws →
      ErrorLines d w = some (d.beforeMessage ++ [d.msg ++ ": " ++ ws] ++
        d.betweenMessageAndOptions ++ ols ++ d.afterOptions)) ∧
    (d.msg = "" → w = .nilE →
      ErrorLines d w = some (d.beforeMessage ++ [placeholderLine] ++
        d.betweenMessageAndOptions ++ ols ++ d.afterOptions)) ∧
    (d.msg = "" → w ≠ .nilE → goErrorStr w = some ws →
      ErrorLines d w = some (d.beforeMessage ++ [ws] ++
        d.betweenMessageAndOptions ++ ols ++ d.afterOptions)) ∧
    (∀ ls, ErrorLines d w = some ls → ErrorStr d w = some (String.intercalate "\n" ls)) ∧
    ErrorLines
      { D0 with
        beforeMessage := ["L0"]
        msg := "M"
        betweenMessageAndOptions := ["L1"]
        afterOptions := ["L2", "L3"] } .nilE =
      some ["L0", "M", "L1", "L2", "L3"] := by
  refine ⟨?_, ?_, ?_, ?_, ?_, by decide⟩
  · intro hm hw
    subst hw
    unfold ErrorLines errLinesCore wrapArg
    rw [if_pos hm, ho]
    rfl
  · intro hm hw hws
    unfold ErrorLines errLinesCore
    rw [wrapArg_ne w hw, hws, if_pos hm, ho]
    rfl
  · intro hm hw
    subst hw
    unfold ErrorLines errLinesCore wrapArg
    rw [if_neg (by simpa using hm), ho]
    rfl
  · intro hm hw hws
    unfold ErrorLines errLinesCore
    rw [wrapArg_ne w hw, hws, if_neg (by simpa using hm), ho]
    rfl
  · intro ls hls
    unfold ErrorStr
    rw [hls]
    rfl

/-- Witness for C5 at the spec's concrete instance. -/
theorem error_lines_assembly_witness :
    optionLines ([] : List String) ([] : List OptionComment) = some [] ∧
    ErrorLines
      { D0 with
        beforeMessage := ["L0"]
        msg := "M"
        betweenMessageAndOptions := ["L1"]
        afterOptions := ["L2", "L3"] } .nilE =
      some (["L0"] ++ ["M"] ++ ["L1"] ++ [] ++ ["L2", "L3"]) :=
  ⟨rfl,
    (error_lines_assembly
      { D0 with
        beforeMessage := ["L0"]
        msg := "M"
        betweenMessageAndOptions := ["L1"]
        afterOptions := ["L2", "L3"] } .nilE "" [] rfl).1 (by decide) rfl⟩

/-- Claim C6 counterexample: on tokens `["ab"]` and the out-of-range
annotation `(5, "c")` the rendered marker line carries three spaces —
one more than the joined line `"ab"` is long — so the claimed
two-space line is not produced. -/
theorem out_of_range_marker_counterexample :
    optionLines ["ab"] [⟨"c", 5⟩] = some ["ab", "   ^ c"] ∧
    ¬ optionLines ["ab"] [⟨"c", 5⟩] = some ["ab", "  ^ c"] := by
  decide

/-- Claim C6 (amended): an annotation whose tokenIndex is negative or at
least the number of tokens produces a line of spaces equal in number to
the joined-line length PLUS ONE (the `length` accumulator counts a
separator after every token, including the last), followed by `"^ "` and
the comment; rendering the token list with exactly that annotation yields
the joined line and then that marker line. -/
theorem out_of_range_annotation_marker (opts : List String) (oc : OptionComment)
    (h1 : opts ≠ []) (h2 : oc.index < 0 ∨ (opts.length : Int) ≤ oc.index) :
    ocLine opts oc =
      some (String.join (List.replicate (optLength opts).toNat " ") ++ "^ " ++ oc.comment) ∧
    optLength opts = goLen (String.intercalate " " opts) + 1 ∧
    optionLines opts [oc] =
      some [String.intercalate " " opts,
        String.join (List.replicate (optLength opts).toNat " ") ++ "^ " ++ oc.comment] := by
  have hline : ocLine opts oc =
      some (String.join (List.replicate (optLength opts).toNat " ") ++ "^ " ++ oc.comment) := by
    unfold ocLine
    rw [if_pos h2]
    unfold goRepeat
    rw [if_neg (show ¬ optLength opts < 0 from not_lt.2 (optLength_nonneg opts))]
    rfl
  refine ⟨hline, ?_, ?_⟩
  · obtain ⟨a, as, rfl⟩ := List.exists_cons_of_ne_nil h1
    exact optLength_eq_goLen_intercalate a as
  · unfold optionLines
    rw [if_neg (by simpa using h1), if_neg (by simp)]
    have hs : sortSort [oc] = [oc] := rfl
    rw [hs, List.mapM_cons, hline]
    rfl

/-- Witness for C6 (amended) at a concrete out-of-range annotation. -/
theorem out_of_range_annotation_marker_witness :
    (["ab"] ≠ ([] : List String)) ∧
    ocLine ["ab"] ⟨"c", 5⟩ =
      some (String.join (List.replicate (optLength ["ab"]).toNat " ") ++ "^ " ++ "c") :=
  ⟨by decide, (out_of_range_annotation_marker ["ab"] ⟨"c", 5⟩ (by decide) (by decide)).1⟩

/-- Claim C7 counterexample: rendering is not total — an in-range
annotation on an empty token computes tilde count -1 and
`strings.Repeat` panics (modelled `none`) — and a token of width 2
renders a caret followed by one tilde, not just the caret. -/
theorem render_panics_on_empty_token :
    optionLines ["", "x"] [⟨"c", 0⟩] = none ∧
    optionLines ["ab", "x"] [⟨"c", 0⟩] = some ["ab x", "^~ c"] := by
  decide

/-- Claim C7 (amended): for an in-range annotation on a NON-EMPTY token,
rendering never fails: the line is the token's start column in spaces,
a caret, byte-width - 1 tildes, a space and the comment, and a width-1
token renders just the caret (no tildes, never negative-length padding);
an empty token, in contrast, panics as shown by the counterexample. -/
theorem in_range_annotation_total (opts : List String) (oc : OptionComment) (t : String)
    (h0 : 0 ≤ oc.index) (h1 : oc.index < (opts.length : Int))
    (ht : opts[oc.index.toNat]? = some t) (hne : t ≠ "") :
    ocLine opts oc = some
      (String.join (List.replicate ((optIndices opts).getD oc.index.toNat 0).toNat " ") ++
        "^" ++ String.join (List.replicate (goLen t - 1).toNat "~") ++ " " ++ oc.comment) ∧
    (goLen t = 1 → ocLine opts oc = some
      (String.join (List.replicate ((optIndices opts).getD oc.index.toNat 0).toNat " ") ++
        "^ " ++ oc.comment)) := by
  have hi : oc.index.toNat < opts.length := by omega
  have hidx : (optIndices opts).getD oc.index.toNat 0 =
      optLengthFrom 0 (opts.take oc.index.toNat) :=
    optIndices_getD opts oc.index.toNat (le_of_lt hi)
  have htake : opts.take (oc.index.toNat + 1) = opts.take oc.index.toNat ++ [t] := by
    rw [List.take_succ, ht]
    rfl
  have hstep : optLengthFrom 0 (opts.take (oc.index.toNat + 1)) =
      optLengthFrom 0 (opts.take oc.index.toNat) + goLen t + 1 := by
    rw [htake, optLengthFrom_append]
    rfl
  have hpos := goLen_pos t hne
  have hidx_nonneg := optLength_nonneg (opts.take oc.index.toNat)
  have hmain : ocLine opts oc = some
      (String.join (List.replicate ((optIndices opts).getD oc.index.toNat 0).toNat " ") ++
        "^" ++ String.join (List.replicate (goLen t - 1).toNat "~") ++ " " ++ oc.comment) := by
    unfold ocLine
    rw [if_neg (by omega)]
    have hcnt : (if oc.index = (opts.length : Int) - 1 then
        optLength opts - (optIndices opts).getD oc.index.toNat 0 - 2
      else
        (optIndices opts).getD (oc.index.toNat + 1) 0 -
          (optIndices opts).getD oc.index.toNat 0 - 2) = goLen t - 1 := by
      by_cases hlast : oc.index = (opts.length : Int) - 1
      · rw [if_pos hlast]
        have hlen : oc.index.toNat + 1 = opts.length := by omega
        have hfull : optLength opts =
            optLengthFrom 0 (opts.take oc.index.toNat) + goLen t + 1 := by
          unfold optLength
          rw [← hstep, hlen, List.take_length]
        rw [hfull, hidx]
        omega
      · rw [if_neg hlast]
        have hsucc : (optIndices opts).getD (oc.index.toNat + 1) 0 =
            optLengthFrom 0 (opts.take oc.index.toNat) + goLen t + 1 := by
          rw [optIndices_getD opts (oc.index.toNat + 1) (by omega), hstep]
        rw [hsucc, hidx]
        omega
    rw [hcnt]
    unfold goRepeat
    rw [if_neg (show ¬ (optIndices opts).getD oc.index.toNat 0 < 0 by rw [hidx]; omega),
      if_neg (show ¬ goLen t - 1 < 0 by omega)]
    rfl
  refine ⟨hmain, fun hg1 => ?_⟩
  rw [hmain, hg1]
  have hrep : String.join (List.replicate ((1 : Int) - 1).toNat "~") = "" := rfl
  rw [hrep, String.append_empty,
    String.append_assoc _ "^" " ", show ("^" ++ " " : String) = "^ " from by decide]

/-- Witness for C7 (amended) at a concrete width-1 token. -/
theorem in_range_annotation_total_witness :
    goLen "a" = 1 ∧ ocLine ["a", "bb"] ⟨"c", 0⟩ = some
      (String.join (List.replicate ((optIndices ["a", "bb"]).getD ((0 : Int)).toNat 0).toNat " ") ++
        "^ " ++ "c") :=
  ⟨by decide,
    (in_range_annotation_total ["a", "bb"] ⟨"c", 0⟩ "a"
      (by decide) (by decide) (by decide) (by decide)).2 (by decide)⟩

/-- Claim C8: wrapping a nil error yields a nil `*Error`; the free
entry points return the zero values on that absent result (as an
interface value holding the typed-nil pointer) and on a plain nil error;
and every setter called on the nil `*Error` is a safe no-op returning
nil — including a chained build exactly like the repository's tests. -/
theorem nil_wrap_roundtrip (c i : Int) (t : Bool) (m l : String)
    (ls opts : List String) (e : GoErr) :
    MaybeWrap .nilE = none ∧
    ExitCode (toGoErr (MaybeWrap .nilE)) = 0 ∧
    Temporary (toGoErr (MaybeWrap .nilE)) = false ∧
    ExitCode .nilE = 0 ∧
    Temporary .nilE = false ∧
    WithTemporary (WithExitCode (MaybeWrap .nilE) c) t = none ∧
    ExitCode (toGoErr (WithTemporary (WithExitCode (MaybeWrap .nilE) c) t)) = 0 ∧
    WithExitCode none c = none ∧
    WithTemporary none t = none ∧
    WithMessage none m = none ∧
    WithWrap none e = none ∧
    WithOptions none opts = none ∧
    WithOptionComment none i m = none ∧
    WithLineBeforeMessage none l = none ∧
    WithLinesBeforeMessage none ls = none ∧
    WithLineBetweenMessageAndOption none l = none ∧
    WithLinesBetweenMessageAndOption none ls = none ∧
    WithLineAfterOptions none l = none ∧
    WithLinesAfterOptions none ls = none :=
  ⟨rfl, rfl, rfl, rfl, rfl, rfl, rfl, rfl, rfl, rfl, rfl, rfl, rfl, rfl, rfl, rfl, rfl, rfl, rfl⟩

/-- Claim C10 counterexample: rendering is not state-preserving — on a
value with two annotations stored in ascending index order and a
non-empty token list, `ErrorLines` leaves the stored `optionComments`
permuted (the in-place sort reaches the caller's slice through the
variadic aliasing), so the post-state differs from the pre-state. -/
theorem errorLines_reorders_stored_comments :
    errorLinesEffect { D0 with options := ["a", "b"], optionComments := [⟨"x", 0⟩, ⟨"y", 1⟩] } ≠
      { D0 with options := ["a", "b"], optionComments := [⟨"x", 0⟩, ⟨"y", 1⟩] } := by
  decide

/-- Claim C10 (amended): `Error()`/`ErrorLines()` leave every field
unchanged except `optionComments`, which is permuted in place into the
sorted order when both `options` and `optionComments` are non-empty (and
left untouched otherwise); repeated calls render identical output (the
sort is idempotent), and the effect itself is idempotent. -/
theorem errorLines_effect_only_sorts_comments (d : DecoData) (w : GoErr) :
    (errorLinesEffect d).options = d.options ∧
    (errorLinesEffect d).beforeMessage = d.beforeMessage ∧
    (errorLinesEffect d).betweenMessageAndOptions = d.betweenMessageAndOptions ∧
    (errorLinesEffect d).afterOptions = d.afterOptions ∧
    (errorLinesEffect d).msg = d.msg ∧
    (errorLinesEffect d).exitCode = d.exitCode ∧
    (errorLinesEffect d).isExitCodeSet = d.isExitCodeSet ∧
    (errorLinesEffect d).temporary = d.temporary ∧
    (errorLinesEffect d).isTemporarySet = d.isTemporarySet ∧
    List.Perm (errorLinesEffect d).optionComments d.optionComments ∧
    ErrorLines (errorLinesEffect d) w = ErrorLines d w ∧
    ErrorStr (errorLinesEffect d) w = ErrorStr d w ∧
    errorLinesEffect (errorLinesEffect d) = errorLinesEffect d := by
  cases d with
  | mk oc op bm bt ao m ec ies tp its =>
    by_cases ho : op.length = 0
    · have heff : errorLinesEffect ⟨oc, op, bm, bt, ao, m, ec, ies, tp, its⟩ =
          ⟨oc, op, bm, bt, ao, m, ec, ies, tp, its⟩ := by
        unfold errorLinesEffect
        rw [if_pos ho]
      refine ⟨?_, ?_, ?_, ?_, ?_, ?_, ?_, ?_, ?_, ?_, ?_, ?_, ?_⟩ <;> rw [heff]
      exact heff
    · by_cases hc : oc.length = 0
      · have heff : errorLinesEffect ⟨oc, op, bm, bt, ao, m, ec, ies, tp, its⟩ =
            ⟨oc, op, bm, bt, ao, m, ec, ies, tp, its⟩ := by
          unfold errorLinesEffect
          rw [if_neg ho, if_pos hc]
        refine ⟨?_, ?_, ?_, ?_, ?_, ?_, ?_, ?_, ?_, ?_, ?_, ?_, ?_⟩ <;> rw [heff]
        exact heff
      · have heff : errorLinesEffect ⟨oc, op, bm, bt, ao, m, ec, ies, tp, its⟩ =
            ⟨sortSort oc, op, bm, bt, ao, m, ec, ies, tp, its⟩ := by
          unfold errorLinesEffect
          simp only [if_neg ho, if_neg hc]
        have hlines : ErrorLines ⟨sortSort oc, op, bm, bt, ao, m, ec, ies, tp, its⟩ w =
            ErrorLines ⟨oc, op, bm, bt, ao, m, ec, ies, tp, its⟩ w := by
          unfold ErrorLines errLinesCore
          rw [show optionLines op (sortSort oc) = optionLines op oc from
            optionLines_sortSort op oc]
        rw [heff]
        refine ⟨rfl, rfl, rfl, rfl, rfl, rfl, rfl, rfl, rfl, sortSort_perm oc, hlines, ?_, ?_⟩
        · unfold ErrorStr
          rw [hlines]
        · unfold errorLinesEffect
          have hc2 : ¬ (sortSort oc).length = 0 := by
            unfold sortSort
            rw [List.length_insertionSort]
            exact hc
          simp only [if_neg ho, if_neg hc2]
          rw [sortSort_idem]

end Goerr
